import Mathlib

/-!
Shallow embedding of `src/fluid_sim.py` (an SPH-style fluid simulation).
Python floats are modelled as real numbers; the module-level tunable
constants (`GRAVITY`, `SMOOTHING_RADIUS`, ...) become fields of a `Config`
record, with the source's values recorded in `srcConfig`.  Particle arrays
of length `n` are modelled as functions `Fin n → ℝ × ℝ` (speeds/positions)
and `Fin n → ℝ` (masses).
-/

namespace FluidSim

/-- The module-level tunable constants of `fluid_sim.py`. -/
structure Config where
  gravity : ℝ
  smoothingRadius : ℝ
  pressureForceMult : ℝ
  targetPressure : ℝ
  wallMult : ℝ
  particleSize : ℝ
  width : ℝ
  height : ℝ

/-- The constant values fixed at the top of `fluid_sim.py`:
`GRAVITY = 0.01`, `SMOOTHING_RADIUS = 30`, `PRESSURE_FORCE_MULT = 0.1`,
`TARGET_PRESSURE = 0.1`, `WALL_MULT = 0.7`, `PARTICLE_SIZE = 5`,
`WIDTH = HEIGHT = 400`. -/
noncomputable def srcConfig : Config :=
  { gravity := 0.01
    smoothingRadius := 30
    pressureForceMult := 0.1
    targetPressure := 0.1
    wallMult := 0.7
    particleSize := 5
    width := 400
    height := 400 }

/-- The source constants with gravity switched off (the zero-gravity
configurations several testable properties quantify over). -/
noncomputable def gravity0 : Config := { srcConfig with gravity := 0 }

/-- The source constants with per-step gravity `1` (a convenient concrete
instance of a "fixed per-step gravitational constant G"). -/
noncomputable def unitGravity : Config := { srcConfig with gravity := 1 }

/-- `smoothing_function(distance)` from `fluid_sim.py`:
`value = max(0, (SMOOTHING_RADIUS - distance) / SMOOTHING_RADIUS)`;
`value = value ** 3`; `value *= 2 / SMOOTHING_RADIUS`. -/
noncomputable def smoothing_function (c : Config) (distance : ℝ) : ℝ :=
  (max 0 ((c.smoothingRadius - distance) / c.smoothingRadius)) ^ 3
    * (2 / c.smoothingRadius)

/-- `smoothing_derivative(distance)` from `fluid_sim.py`:
`value = -6 * (SMOOTHING_RADIUS - distance) ** 2`;
`value /= SMOOTHING_RADIUS ** 4`. -/
noncomputable def smoothing_derivative (c : Config) (distance : ℝ) : ℝ :=
  -6 * (c.smoothingRadius - distance) ^ 2 / c.smoothingRadius ^ 4

/-- `calculate_distance(point1, point2)` from `fluid_sim.py`:
`((point1[0]-point2[0])**2 + (point1[1]-point2[1])**2) ** (1/2)`. -/
noncomputable def calculate_distance (p1 p2 : ℝ × ℝ) : ℝ :=
  Real.sqrt ((p1.1 - p2.1) ^ 2 + (p1.2 - p2.2) ^ 2)

/-- `calculate_pressure(point, positions, masses)` from `fluid_sim.py`:
sums `smoothing_function(distance) * masses[i]` over all particle
indices `i`. -/
noncomputable def calculate_pressure {n : ℕ} (c : Config) (point : ℝ × ℝ)
    (positions : Fin n → ℝ × ℝ) (masses : Fin n → ℝ) : ℝ :=
  ∑ i, smoothing_function c (calculate_distance point (positions i)) * masses i

/-- The step-local predicted positions computed at the top of `update`:
`predicted_positions[i] = initial_positions[i] + initial_speeds[i]`
componentwise. -/
def predicted_positions {n : ℕ} (initial_speeds initial_positions : Fin n → ℝ × ℝ) :
    Fin n → ℝ × ℝ := fun i =>
  ((initial_positions i).1 + (initial_speeds i).1,
   (initial_positions i).2 + (initial_speeds i).2)

/-- The `pressure_force` accumulated by the inner `j` loop of `update` for
particle `i`: for every `j ≠ i`, each axis gains
`((pred[i][axis] - pred[j][axis]) / distance) * pressure_gradient *
pressure_difference * PRESSURE_FORCE_MULT` where
`pressure_gradient = smoothing_derivative(distance) * masses[j]` and
`pressure_difference = TARGET_PRESSURE - pressure` at particle `i`. -/
noncomputable def pressure_force {n : ℕ} (c : Config) (pred : Fin n → ℝ × ℝ)
    (masses : Fin n → ℝ) (i : Fin n) : ℝ × ℝ :=
  (∑ j, if i = j then 0 else
      ((pred i).1 - (pred j).1) / calculate_distance (pred i) (pred j)
        * (smoothing_derivative c (calculate_distance (pred i) (pred j)) * masses j)
        * (c.targetPressure - calculate_pressure c (pred i) pred masses)
        * c.pressureForceMult,
   ∑ j, if i = j then 0 else
      ((pred i).2 - (pred j).2) / calculate_distance (pred i) (pred j)
        * (smoothing_derivative c (calculate_distance (pred i) (pred j)) * masses j)
        * (c.targetPressure - calculate_pressure c (pred i) pred masses)
        * c.pressureForceMult)

/-- The per-particle acceleration assembled in `update`: it starts at
`[0, 0]`, gains `GRAVITY` on the vertical axis, and finally gains
`pressure_force / pressure` componentwise, where `pressure` is the
pressure estimated at the particle's own predicted position. -/
noncomputable def acceleration {n : ℕ} (c : Config) (pred : Fin n → ℝ × ℝ)
    (masses : Fin n → ℝ) (i : Fin n) : ℝ × ℝ :=
  ((pressure_force c pred masses i).1
      / calculate_pressure c (pred i) pred masses,
   c.gravity + (pressure_force c pred masses i).2
      / calculate_pressure c (pred i) pred masses)

/-- One axis of the wall-bounce branch at the end of `update`: a position
below `display_size` is clamped there and the velocity is scaled by
`-WALL_MULT`; otherwise a position above `limit - display_size` is clamped
there with the same velocity scaling; otherwise both are unchanged.
Returns `(new position, new velocity)`. -/
noncomputable def bounce (wallMult display_size limit pos vel : ℝ) : ℝ × ℝ :=
  if pos < 0 + display_size then (0 + display_size, vel * -wallMult)
  else if pos > limit - display_size then (limit - display_size, vel * -wallMult)
  else (pos, vel)

/-- `update(initial_speeds, initial_positions, masses)` from
`fluid_sim.py`: computes predicted positions, accumulates all
accelerations from that frozen snapshot, then integrates
(`new_speed = initial_speed + acceleration`,
`new_position = predicted_position + new_speed`) and bounces particles
off the four walls, using display size `masses[i] ** (1/3) * PARTICLE_SIZE`.
Returns `(new_speeds, new_positions)`. -/
noncomputable def update {n : ℕ} (c : Config)
    (initial_speeds initial_positions : Fin n → ℝ × ℝ)
    (masses : Fin n → ℝ) : (Fin n → ℝ × ℝ) × (Fin n → ℝ × ℝ) :=
  let pred := predicted_positions initial_speeds initial_positions
  let new_speed : Fin n → ℝ × ℝ := fun i =>
    ((initial_speeds i).1 + (acceleration c pred masses i).1,
     (initial_speeds i).2 + (acceleration c pred masses i).2)
  let new_position : Fin n → ℝ × ℝ := fun i =>
    ((pred i).1 + (new_speed i).1, (pred i).2 + (new_speed i).2)
  let bounced : Fin n → (ℝ × ℝ) × (ℝ × ℝ) := fun i =>
    let display_size := masses i ^ ((1:ℝ)/3) * c.particleSize
    let bx := bounce c.wallMult display_size c.width (new_position i).1 (new_speed i).1
    let by' := bounce c.wallMult display_size c.height (new_position i).2 (new_speed i).2
    ((bx.2, by'.2), (bx.1, by'.1))
  (fun i => (bounced i).1, fun i => (bounced i).2)

/-- Iterating `update`: the state after `t` simulation frames, starting
from `(speeds, positions)` (the driving loop of `main`). -/
noncomputable def run {n : ℕ} (c : Config) (masses : Fin n → ℝ) :
    ℕ → (Fin n → ℝ × ℝ) × (Fin n → ℝ × ℝ) →
    (Fin n → ℝ × ℝ) × (Fin n → ℝ × ℝ)
  | 0, s => s
  | t + 1, s =>
      update c (run c masses t s).1 (run c masses t s).2 masses

/-- The divisions performed while `update` runs: the pairwise term divides
by `calculate_distance` for every pair of distinct indices, and the final
acceleration divides by the pressure at each particle's predicted
position.  Python raises `ZeroDivisionError` exactly when one of these
divisors is `0`. -/
def update_defined {n : ℕ} (c : Config)
    (initial_speeds initial_positions : Fin n → ℝ × ℝ)
    (masses : Fin n → ℝ) : Prop :=
  (∀ i j : Fin n, i ≠ j →
      calculate_distance (predicted_positions initial_speeds initial_positions i)
        (predicted_positions initial_speeds initial_positions j) ≠ 0)
  ∧ ∀ i : Fin n,
      calculate_pressure c (predicted_positions initial_speeds initial_positions i)
        (predicted_positions initial_speeds initial_positions) masses ≠ 0

open Classical in
/-- `update` with Python's error semantics made explicit: `none` models the
`ZeroDivisionError` raised when a division in `update` has divisor `0`,
and otherwise the step returns its value. -/
noncomputable def updateE {n : ℕ} (c : Config)
    (initial_speeds initial_positions : Fin n → ℝ × ℝ)
    (masses : Fin n → ℝ) : Option ((Fin n → ℝ × ℝ) × (Fin n → ℝ × ℝ)) :=
  if update_defined c initial_speeds initial_positions masses then
    some (update c initial_speeds initial_positions masses)
  else none

/-- Two unit-mass particles at rest: the zero initial speeds. -/
noncomputable def pairSpeeds : Fin 2 → ℝ × ℝ := fun _ => (0, 0)

/-- Two particles at `(100, 200)` and `(160, 200)`: `60` apart, farther
than the smoothing radius `30`, away from all walls. -/
noncomputable def pairPositions : Fin 2 → ℝ × ℝ := ![(100, 200), (160, 200)]

/-- Unit masses for the two-particle configuration. -/
noncomputable def pairMasses : Fin 2 → ℝ := fun _ => 1

theorem smoothing_function_eq_zero_of_le (c : Config) (hh : 0 < c.smoothingRadius)
    {d : ℝ} (hd : c.smoothingRadius ≤ d) : smoothing_function c d = 0 := by
  have h1 : (c.smoothingRadius - d) / c.smoothingRadius ≤ 0 :=
    div_nonpos_iff.2 (Or.inr ⟨by linarith, hh.le⟩)
  have h2 : max 0 ((c.smoothingRadius - d) / c.smoothingRadius) = 0 :=
    max_eq_left h1
  simp [smoothing_function, h2]

theorem smoothing_function_zero (c : Config) (hh : 0 < c.smoothingRadius) :
    smoothing_function c 0 = 2 / c.smoothingRadius := by
  unfold smoothing_function
  rw [sub_zero, div_self hh.ne', max_eq_right zero_le_one, one_pow, one_mul]

theorem smoothing_function_nonneg (c : Config) (hh : 0 < c.smoothingRadius)
    (d : ℝ) : 0 ≤ smoothing_function c d := by
  have h1 : (0:ℝ) ≤ max 0 ((c.smoothingRadius - d) / c.smoothingRadius) :=
    le_max_left _ _
  have h2 : (0:ℝ) ≤ 2 / c.smoothingRadius := by positivity
  exact mul_nonneg (pow_nonneg h1 3) h2

theorem calculate_distance_self (p : ℝ × ℝ) : calculate_distance p p = 0 := by
  simp [calculate_distance]

/-- Claim C6: the smoothing kernel is zero at and beyond the smoothing
radius, strictly decreasing on `[0, smoothingRadius)`, and attains its
maximal value `2 / smoothingRadius` at distance `0`. -/
theorem kernel_shape (c : Config) (hh : 0 < c.smoothingRadius) :
    (∀ d, c.smoothingRadius ≤ d → smoothing_function c d = 0)
    ∧ (∀ d₁ d₂, 0 ≤ d₁ → d₁ < d₂ → d₂ < c.smoothingRadius →
        smoothing_function c d₂ < smoothing_function c d₁)
    ∧ smoothing_function c 0 = 2 / c.smoothingRadius
    ∧ (∀ d, 0 ≤ d → smoothing_function c d ≤ 2 / c.smoothingRadius) := by
  refine ⟨fun d hd => smoothing_function_eq_zero_of_le c hh hd, ?_, ?_, ?_⟩
  · intro d₁ d₂ h0 h12 h2h
    have ha2 : 0 < (c.smoothingRadius - d₂) / c.smoothingRadius :=
      div_pos (by linarith) hh
    have ha12 : (c.smoothingRadius - d₂) / c.smoothingRadius
        < (c.smoothingRadius - d₁) / c.smoothingRadius :=
      (div_lt_div_iff_of_pos_right hh).2 (by linarith)
    have hm1 : max 0 ((c.smoothingRadius - d₁) / c.smoothingRadius)
        = (c.smoothingRadius - d₁) / c.smoothingRadius :=
      max_eq_right (le_of_lt (lt_trans ha2 ha12))
    have hm2 : max 0 ((c.smoothingRadius - d₂) / c.smoothingRadius)
        = (c.smoothingRadius - d₂) / c.smoothingRadius :=
      max_eq_right ha2.le
    unfold smoothing_function
    rw [hm1, hm2]
    have hpow : ((c.smoothingRadius - d₂) / c.smoothingRadius) ^ 3
        < ((c.smoothingRadius - d₁) / c.smoothingRadius) ^ 3 :=
      pow_lt_pow_left₀ ha12 ha2.le (by norm_num)
    exact mul_lt_mul_of_pos_right hpow (by positivity)
  · exact smoothing_function_zero c hh
  · intro d hd
    have h1 : (c.smoothingRadius - d) / c.smoothingRadius ≤ 1 := by
      rw [div_le_one hh]; linarith
    have h2 : max 0 ((c.smoothingRadius - d) / c.smoothingRadius) ≤ 1 :=
      max_le (by norm_num) h1
    have h0 : (0:ℝ) ≤ max 0 ((c.smoothingRadius - d) / c.smoothingRadius) :=
      le_max_left _ _
    have hpow : (max 0 ((c.smoothingRadius - d) / c.smoothingRadius)) ^ 3 ≤ 1 :=
      pow_le_one₀ h0 h2
    calc (max 0 ((c.smoothingRadius - d) / c.smoothingRadius)) ^ 3
          * (2 / c.smoothingRadius)
        ≤ 1 * (2 / c.smoothingRadius) :=
          mul_le_mul_of_nonneg_right hpow (by positivity)
      _ = 2 / c.smoothingRadius := one_mul _

/-- Witness for C6 at the source constants (`SMOOTHING_RADIUS = 30`):
the kernel vanishes at distance `35 ≥ 30`. -/
theorem kernel_shape_witness : smoothing_function srcConfig 35 = 0 :=
  (kernel_shape srcConfig (by norm_num [srcConfig])).1 35 (by norm_num [srcConfig])

/-- Claim C3: `smoothing_derivative` is given by the closed formula
`-6 * (h - d)^2 / h^4` for every distance, with no truncation at the
smoothing radius: beyond the radius it is still nonzero even though the
kernel itself is zero there. -/
theorem derivative_untruncated (c : Config) (hh : 0 < c.smoothingRadius)
    (d : ℝ) (hd : c.smoothingRadius < d) :
    (∀ e : ℝ, smoothing_derivative c e
        = -6 * (c.smoothingRadius - e) ^ 2 / c.smoothingRadius ^ 4)
    ∧ smoothing_derivative c d ≠ 0
    ∧ smoothing_function c d = 0 := by
  refine ⟨fun e => rfl, ?_, smoothing_function_eq_zero_of_le c hh hd.le⟩
  have hne : c.smoothingRadius - d ≠ 0 := by linarith
  have hnum : -6 * (c.smoothingRadius - d) ^ 2 < 0 := by
    have : 0 < (c.smoothingRadius - d) ^ 2 := by positivity
    linarith
  have : -6 * (c.smoothingRadius - d) ^ 2 / c.smoothingRadius ^ 4 < 0 :=
    div_neg_of_neg_of_pos hnum (by positivity)
  unfold smoothing_derivative
  exact ne_of_lt this

/-- Witness for C3 at the source constants: distance `40 > 30`. -/
theorem derivative_untruncated_witness :
    smoothing_derivative srcConfig 40 ≠ 0 :=
  (derivative_untruncated srcConfig (by norm_num [srcConfig]) 40
    (by norm_num [srcConfig])).2.1

/-- Claim C5: `calculate_pressure` is the sum over all particles of
`kernel(distance) * mass`, including the self-term; when every particle
coincides with the query point the pressure is `kernel(0) * Σ masses`. -/
theorem pressure_is_kernel_sum {n : ℕ} (c : Config) (point : ℝ × ℝ)
    (positions : Fin n → ℝ × ℝ) (masses : Fin n → ℝ)
    (hco : ∀ i, positions i = point) :
    calculate_pressure c point positions masses
      = ∑ i, smoothing_function c (calculate_distance point (positions i)) * masses i
    ∧ calculate_pressure c point positions masses
      = smoothing_function c 0 * ∑ i, masses i := by
  refine ⟨rfl, ?_⟩
  unfold calculate_pressure
  rw [Finset.mul_sum]
  refine Finset.sum_congr rfl fun i _ => ?_
  rw [hco i, calculate_distance_self]

/-- Witness for C5: two unit-mass particles both at `(100, 100)` give
pressure `kernel(0) * (1 + 1)` at that point. -/
theorem pressure_is_kernel_sum_witness :
    calculate_pressure srcConfig ((100:ℝ), (100:ℝ))
        (fun _ : Fin 2 => ((100:ℝ), (100:ℝ))) (fun _ => (1:ℝ))
      = smoothing_function srcConfig 0 * ∑ _i : Fin 2, (1:ℝ) :=
  (pressure_is_kernel_sum srcConfig ((100:ℝ), (100:ℝ))
    (fun _ : Fin 2 => ((100:ℝ), (100:ℝ))) (fun _ => (1:ℝ)) (fun _ => rfl)).2

/-- Claim C10: with a positive smoothing radius and strictly positive
masses, the pressure estimated at any particle's own position is at least
the self-term `(2 / smoothingRadius) * masses[i]`, hence nonzero, so the
division `pressure_force / pressure` in `update` never divides by zero. -/
theorem pressure_self_lower_bound {n : ℕ} (c : Config)
    (hh : 0 < c.smoothingRadius) (masses : Fin n → ℝ)
    (hm : ∀ j, 0 < masses j) (pts : Fin n → ℝ × ℝ) (i : Fin n) :
    2 / c.smoothingRadius * masses i ≤ calculate_pressure c (pts i) pts masses
    ∧ calculate_pressure c (pts i) pts masses ≠ 0 := by
  have hterm : smoothing_function c (calculate_distance (pts i) (pts i)) * masses i
      = 2 / c.smoothingRadius * masses i := by
    rw [calculate_distance_self, smoothing_function_zero c hh]
  have hkey : 2 / c.smoothingRadius * masses i
      ≤ calculate_pressure c (pts i) pts masses := by
    rw [← hterm]
    unfold calculate_pressure
    exact Finset.single_le_sum
      (f := fun j => smoothing_function c (calculate_distance (pts i) (pts j)) * masses j)
      (fun j _ => mul_nonneg (smoothing_function_nonneg c hh _) (hm j).le)
      (Finset.mem_univ i)
  have hpos : 0 < 2 / c.smoothingRadius * masses i :=
    mul_pos (by positivity) (hm i)
  exact ⟨hkey, (lt_of_lt_of_le hpos hkey).ne'⟩

/-- Witness for C10: a single unit-mass particle at `(100, 100)` under the
source constants. -/
theorem pressure_self_lower_bound_witness :
    2 / srcConfig.smoothingRadius * (1:ℝ)
      ≤ calculate_pressure srcConfig ((100:ℝ), (100:ℝ))
          (fun _ : Fin 1 => ((100:ℝ), (100:ℝ))) (fun _ => (1:ℝ))
    ∧ calculate_pressure srcConfig ((100:ℝ), (100:ℝ))
        (fun _ : Fin 1 => ((100:ℝ), (100:ℝ))) (fun _ => (1:ℝ)) ≠ 0 :=
  pressure_self_lower_bound srcConfig (by norm_num [srcConfig])
    (fun _ => (1:ℝ)) (fun _ => one_pos) (fun _ => ((100:ℝ), (100:ℝ))) 0

/-- Claim C9: when two distinct particles have coincident predicted
positions, the pairwise term of `update` divides by a zero distance, so
the step fails (models Python's `ZeroDivisionError`) instead of returning
a value. -/
theorem coincident_step_fails {n : ℕ} (c : Config)
    (v p : Fin n → ℝ × ℝ) (m : Fin n → ℝ) (i j : Fin n) (hij : i ≠ j)
    (hco : predicted_positions v p i = predicted_positions v p j) :
    updateE c v p m = none := by
  unfold updateE
  rw [if_neg]
  rintro ⟨h1, _⟩
  exact h1 i j hij (by rw [hco, calculate_distance_self])

/-- Witness for C9: two unit-mass particles both at `(100, 100)` with zero
velocity make the step fail. -/
theorem coincident_step_fails_witness :
    updateE srcConfig (fun _ : Fin 2 => ((0:ℝ), (0:ℝ)))
      (fun _ => ((100:ℝ), (100:ℝ))) (fun _ => (1:ℝ)) = none :=
  coincident_step_fails srcConfig _ _ _ 0 1 (by decide) rfl

/-- Claim C4: the acceleration used by `update` is computed entirely from
the frozen predicted-position snapshot `q k = positions[k] + speeds[k]`:
it is `(force.x / P, GRAVITY + force.y / P)` where `P` is the pressure at
`q i` and `force` accumulates, over every `j ≠ i`, the per-axis term
`((q i - q j) / d) * (derivative(d) * masses[j]) *
(TARGET_PRESSURE - P) * PRESSURE_FORCE_MULT`; no other particle's updated
state occurs in it. -/
theorem acceleration_from_snapshot {n : ℕ} (c : Config)
    (v p : Fin n → ℝ × ℝ) (m : Fin n → ℝ) (i : Fin n) :
    acceleration c (predicted_positions v p) m i
      = (let q : Fin n → ℝ × ℝ :=
           fun k => ((p k).1 + (v k).1, (p k).2 + (v k).2)
         let P : ℝ :=
           ∑ k, smoothing_function c (calculate_distance (q i) (q k)) * m k
         ((∑ j, if i = j then 0 else
              ((q i).1 - (q j).1) / calculate_distance (q i) (q j)
                * (smoothing_derivative c (calculate_distance (q i) (q j)) * m j)
                * (c.targetPressure - P) * c.pressureForceMult) / P,
          c.gravity + (∑ j, if i = j then 0 else
              ((q i).2 - (q j).2) / calculate_distance (q i) (q j)
                * (smoothing_derivative c (calculate_distance (q i) (q j)) * m j)
                * (c.targetPressure - P) * c.pressureForceMult) / P)) := rfl

/-- Claim C7: the integrator in `update` sets
`new_speed = initial_speed + acceleration`,
`new_position = predicted_position + new_speed`, then resolves the
boundary once per axis with display size `masses[i]^(1/3) * PARTICLE_SIZE`:
below `display_size` the position is clamped there, above
`extent - display_size` it is clamped there, and in either case that
axis's velocity is scaled by `-WALL_MULT`. -/
theorem integrator_boundary {n : ℕ} (c : Config)
    (v p : Fin n → ℝ × ℝ) (m : Fin n → ℝ) (i : Fin n) :
    (let pred := predicted_positions v p
     let w : ℝ × ℝ := ((v i).1 + (acceleration c pred m i).1,
                       (v i).2 + (acceleration c pred m i).2)
     let q : ℝ × ℝ := ((pred i).1 + w.1, (pred i).2 + w.2)
     let ds : ℝ := m i ^ ((1:ℝ)/3) * c.particleSize
     (update c v p m).2 i
       = ((if q.1 < 0 + ds then 0 + ds
           else if q.1 > c.width - ds then c.width - ds else q.1),
          (if q.2 < 0 + ds then 0 + ds
           else if q.2 > c.height - ds then c.height - ds else q.2))
     ∧ (update c v p m).1 i
       = ((if q.1 < 0 + ds then w.1 * -c.wallMult
           else if q.1 > c.width - ds then w.1 * -c.wallMult else w.1),
          (if q.2 < 0 + ds then w.2 * -c.wallMult
           else if q.2 > c.height - ds then w.2 * -c.wallMult else w.2))) := by
  refine ⟨?_, ?_⟩ <;>
    · simp only [update, bounce]
      split_ifs <;> rfl

theorem acceleration_single (c : Config) (pred : Fin 1 → ℝ × ℝ)
    (m : Fin 1 → ℝ) (i : Fin 1) :
    acceleration c pred m i = (0, c.gravity) := by
  have h0 : i = 0 := Subsingleton.elim i 0
  subst h0
  simp [acceleration, pressure_force, Fin.sum_univ_one]

theorem update_single_step (c : Config) (m : Fin 1 → ℝ) (vx vy x y : ℝ)
    (h1 : ¬ (x + vx + vx < m 0 ^ ((1:ℝ)/3) * c.particleSize))
    (h2 : ¬ (x + vx + vx > c.width - m 0 ^ ((1:ℝ)/3) * c.particleSize))
    (h3 : ¬ (y + vy + (vy + c.gravity) < m 0 ^ ((1:ℝ)/3) * c.particleSize))
    (h4 : ¬ (y + vy + (vy + c.gravity) > c.height - m 0 ^ ((1:ℝ)/3) * c.particleSize)) :
    update c (fun _ => (vx, vy)) (fun _ => (x, y)) m
      = (fun _ => (vx, vy + c.gravity),
         fun _ => (x + vx + vx, y + vy + (vy + c.gravity))) := by
  have ha := acceleration_single c
    (predicted_positions (fun _ => (vx, vy)) (fun _ => (x, y))) m
  refine Prod.ext ?_ ?_ <;> funext i <;>
    rw [Subsingleton.elim i 0] <;>
    simp only [update, predicted_positions, bounce, ha, add_zero, zero_add] <;>
    rw [if_neg h1, if_neg h2, if_neg h3, if_neg h4]

/-- Claim C8 counterexample: a single resting particle seeded outside the
wall band (`x = -10 < display radius 5`) is moved by the very first step
even with zero gravity: the boundary branch clamps it to `x = 5`. -/
theorem single_particle_cex :
    (update gravity0 (fun _ : Fin 1 => ((0:ℝ), (0:ℝ)))
        (fun _ => ((-10:ℝ), (200:ℝ))) (fun _ => (1:ℝ))).2 0 ≠ ((-10:ℝ), (200:ℝ)) := by
  have ha := acceleration_single gravity0
    (predicted_positions (fun _ : Fin 1 => ((0:ℝ), (0:ℝ)))
      (fun _ => ((-10:ℝ), (200:ℝ)))) (fun _ => (1:ℝ))
  have hval : ((update gravity0 (fun _ : Fin 1 => ((0:ℝ), (0:ℝ)))
      (fun _ => ((-10:ℝ), (200:ℝ))) (fun _ => (1:ℝ))).2 0).1 = 5 := by
    simp only [update, predicted_positions, bounce, ha]
    norm_num [gravity0, srcConfig, Real.one_rpow]
  intro hcontra
  have hx := congrArg Prod.fst hcontra
  rw [hval] at hx
  norm_num at hx

/-- Claim C8 (amended): for a single-particle run with zero gravity and
zero initial velocity whose initial position lies inside the wall band
`[displayRadius, extent - displayRadius]` on each axis, the state is a
fixed point of `update`, so the position is unchanged after any number of
steps. -/
theorem single_particle_steady (c : Config) (hG : c.gravity = 0)
    (m : Fin 1 → ℝ) (hm : 0 < m 0) (hh : 0 < c.smoothingRadius) (x y : ℝ)
    (hx1 : m 0 ^ ((1:ℝ)/3) * c.particleSize ≤ x)
    (hx2 : x ≤ c.width - m 0 ^ ((1:ℝ)/3) * c.particleSize)
    (hy1 : m 0 ^ ((1:ℝ)/3) * c.particleSize ≤ y)
    (hy2 : y ≤ c.height - m 0 ^ ((1:ℝ)/3) * c.particleSize)
    (t : ℕ) :
    run c m t ((fun _ => (0, 0)), (fun _ => (x, y)))
      = ((fun _ => (0, 0)), (fun _ => (x, y))) := by
  induction t with
  | zero => rfl
  | succ t ih =>
      have b1 : ¬ (x + 0 + 0 < m 0 ^ ((1:ℝ)/3) * c.particleSize) := by
        simpa using not_lt.2 hx1
      have b2 : ¬ (x + 0 + 0 > c.width - m 0 ^ ((1:ℝ)/3) * c.particleSize) := by
        simpa using not_lt.2 hx2
      have b3 : ¬ (y + 0 + (0 + c.gravity) < m 0 ^ ((1:ℝ)/3) * c.particleSize) := by
        rw [hG]; simpa using not_lt.2 hy1
      have b4 : ¬ (y + 0 + (0 + c.gravity) > c.height - m 0 ^ ((1:ℝ)/3) * c.particleSize) := by
        rw [hG]; simpa using not_lt.2 hy2
      simp only [run, ih]
      rw [update_single_step c m 0 0 x y b1 b2 b3 b4]
      refine Prod.ext ?_ ?_ <;> funext i <;> rw [hG] <;> norm_num

/-- Witness for C8: a unit-mass particle resting at `(200, 200)` under the
zero-gravity source constants stays put for `3` steps. -/
theorem single_particle_steady_witness :
    run gravity0 (fun _ : Fin 1 => (1:ℝ)) 3
        ((fun _ => ((0:ℝ), (0:ℝ))), (fun _ => ((200:ℝ), (200:ℝ))))
      = ((fun _ => ((0:ℝ), (0:ℝ))), (fun _ => ((200:ℝ), (200:ℝ)))) :=
  single_particle_steady gravity0 rfl (fun _ => (1:ℝ)) (by norm_num)
    (by norm_num [gravity0, srcConfig]) 200 200
    (by norm_num [gravity0, srcConfig])
    (by norm_num [gravity0, srcConfig])
    (by norm_num [gravity0, srcConfig])
    (by norm_num [gravity0, srcConfig]) 3

/-- Claim C2 (amended): a single particle (so the pairwise pressure force
is identically zero) starting at rest under per-step gravity `G`, staying
inside the wall band throughout, has vertical velocity `t * G` after `t`
steps but cumulative vertical displacement `G * t ^ 2` — not
`G * t * (t+1) / 2` — because `update` adds the particle's velocity twice
per step: once into the predicted position and once during integration. -/
theorem gravity_fall_run (c : Config) (m : Fin 1 → ℝ) (hm : 0 < m 0)
    (hh : 0 < c.smoothingRadius) (x y : ℝ) (t : ℕ)
    (hx1 : m 0 ^ ((1:ℝ)/3) * c.particleSize ≤ x)
    (hx2 : x ≤ c.width - m 0 ^ ((1:ℝ)/3) * c.particleSize)
    (hy : ∀ k : ℕ, k ≤ t →
      m 0 ^ ((1:ℝ)/3) * c.particleSize ≤ y + c.gravity * (k:ℝ)^2
      ∧ y + c.gravity * (k:ℝ)^2 ≤ c.height - m 0 ^ ((1:ℝ)/3) * c.particleSize) :
    run c m t ((fun _ => (0, 0)), (fun _ => (x, y)))
      = ((fun _ => (0, (t:ℝ) * c.gravity)),
         (fun _ => (x, y + c.gravity * (t:ℝ)^2))) := by
  induction t with
  | zero =>
      refine Prod.ext ?_ ?_ <;> funext i <;> norm_num [run]
  | succ t ih =>
      have ih' := ih (fun k hk => hy k (Nat.le_succ_of_le hk))
      have b1 : ¬ (x + 0 + 0 < m 0 ^ ((1:ℝ)/3) * c.particleSize) := by
        simpa using not_lt.2 hx1
      have b2 : ¬ (x + 0 + 0 > c.width - m 0 ^ ((1:ℝ)/3) * c.particleSize) := by
        simpa using not_lt.2 hx2
      have h5 := hy (t+1) le_rfl
      have h6 : y + c.gravity * ((t:ℕ)+1:ℝ)^2
          = y + c.gravity * (t:ℝ)^2 + (t:ℝ) * c.gravity
            + ((t:ℝ) * c.gravity + c.gravity) := by
        push_cast
        ring
      have b3 : ¬ (y + c.gravity * (t:ℝ)^2 + (t:ℝ) * c.gravity
          + ((t:ℝ) * c.gravity + c.gravity)
          < m 0 ^ ((1:ℝ)/3) * c.particleSize) := by
        refine not_lt.2 ?_
        have h7 := h5.1
        push_cast at h7 h6
        linarith
      have b4 : ¬ (y + c.gravity * (t:ℝ)^2 + (t:ℝ) * c.gravity
          + ((t:ℝ) * c.gravity + c.gravity)
          > c.height - m 0 ^ ((1:ℝ)/3) * c.particleSize) := by
        refine not_lt.2 ?_
        have h7 := h5.2
        push_cast at h7 h6
        linarith
      simp only [run, ih']
      rw [update_single_step c m 0 ((t:ℝ) * c.gravity) x
        (y + c.gravity * (t:ℝ)^2) b1 b2 b3 b4]
      refine Prod.ext ?_ ?_ <;> funext i <;>
        simp only [Prod.mk.injEq] <;> constructor <;> push_cast <;> ring

/-- Witness for C2's amended statement at the source constants: a unit
mass at `(200, 100)`, at rest, for `t = 2` steps. -/
theorem gravity_fall_run_witness :
    run srcConfig (fun _ : Fin 1 => (1:ℝ)) 2
        ((fun _ => ((0:ℝ), (0:ℝ))), (fun _ => ((200:ℝ), (100:ℝ))))
      = ((fun _ => ((0:ℝ), ((2:ℕ):ℝ) * srcConfig.gravity)),
         (fun _ => ((200:ℝ), (100:ℝ) + srcConfig.gravity * ((2:ℕ):ℝ)^2))) :=
  gravity_fall_run srcConfig (fun _ => (1:ℝ)) (by norm_num)
    (by norm_num [srcConfig]) 200 100 2
    (by norm_num [srcConfig])
    (by norm_num [srcConfig])
    (by
      intro k hk
      have hk' : (k:ℝ) ≤ 2 := by exact_mod_cast hk
      have hk0 : (0:ℝ) ≤ (k:ℝ) := Nat.cast_nonneg k
      constructor <;> norm_num [srcConfig] <;> nlinarith)

/-- Claim C2 counterexample: with per-step gravity `G = 1`, a resting
single particle's vertical displacement after `t = 2` steps is
`4 = G * t ^ 2`, not `3 = G * t * (t+1) / 2` as the claim states. -/
theorem gravity_fall_cex :
    (((run unitGravity (fun _ : Fin 1 => (1:ℝ)) 2
        ((fun _ => ((0:ℝ), (0:ℝ))), (fun _ => ((200:ℝ), (100:ℝ))))).2 0).2)
      ≠ 100 + unitGravity.gravity * (2 * (2 + 1) / 2) := by
  have h1 := update_single_step unitGravity (fun _ => (1:ℝ)) 0 0 200 100
    (by norm_num [unitGravity, srcConfig, Real.one_rpow])
    (by norm_num [unitGravity, srcConfig, Real.one_rpow])
    (by norm_num [unitGravity, srcConfig, Real.one_rpow])
    (by norm_num [unitGravity, srcConfig, Real.one_rpow])
  have h2 := update_single_step unitGravity (fun _ => (1:ℝ))
    0 (0 + unitGravity.gravity) (200 + 0 + 0) (100 + 0 + (0 + unitGravity.gravity))
    (by norm_num [unitGravity, srcConfig, Real.one_rpow])
    (by norm_num [unitGravity, srcConfig, Real.one_rpow])
    (by norm_num [unitGravity, srcConfig, Real.one_rpow])
    (by norm_num [unitGravity, srcConfig, Real.one_rpow])
  simp only [run, h1]
  rw [h2]
  norm_num [unitGravity, srcConfig]

theorem pair_dist :
    calculate_distance (predicted_positions pairSpeeds pairPositions 0)
      (predicted_positions pairSpeeds pairPositions 1) = 60 := by
  unfold predicted_positions calculate_distance pairSpeeds pairPositions
  simp only [Matrix.cons_val_zero, Matrix.cons_val_one, Matrix.head_cons, add_zero]
  rw [show ((100:ℝ) - 160) ^ 2 + ((200:ℝ) - 200) ^ 2 = 60 ^ 2 from by norm_num]
  exact Real.sqrt_sq (by norm_num)

/-- Claim C1 counterexample: at zero gravity, two unit-mass particles `60`
apart — farther than the smoothing radius `30` — still receive a nonzero
acceleration from the pairwise pressure term of `update`, because
`smoothing_derivative` is not truncated at the smoothing radius. -/
theorem distant_pair_cex :
    gravity0.gravity = 0
    ∧ gravity0.smoothingRadius
        < calculate_distance (predicted_positions pairSpeeds pairPositions 0)
            (predicted_positions pairSpeeds pairPositions 1)
    ∧ acceleration gravity0 (predicted_positions pairSpeeds pairPositions)
        pairMasses 0 ≠ (0, 0) := by
  refine ⟨rfl, by rw [pair_dist]; norm_num [gravity0, srcConfig], ?_⟩
  have h01 : ¬ ((0:Fin 2) = 1) := by decide
  have hd01 := pair_dist
  have hself : calculate_distance (predicted_positions pairSpeeds pairPositions 0)
      (predicted_positions pairSpeeds pairPositions 0) = 0 :=
    calculate_distance_self _
  have hP : calculate_pressure gravity0
      (predicted_positions pairSpeeds pairPositions 0)
      (predicted_positions pairSpeeds pairPositions) pairMasses = 1/15 := by
    unfold calculate_pressure
    rw [Fin.sum_univ_two, hself, hd01,
      smoothing_function_zero gravity0 (by norm_num [gravity0, srcConfig]),
      smoothing_function_eq_zero_of_le gravity0 (by norm_num [gravity0, srcConfig])
        (by norm_num [gravity0, srcConfig] : gravity0.smoothingRadius ≤ 60)]
    norm_num [gravity0, srcConfig, pairMasses]
  have hacc : acceleration gravity0 (predicted_positions pairSpeeds pairPositions)
      pairMasses 0 = (1/3000, 0) := by
    simp only [acceleration, pressure_force, Fin.sum_univ_two, hP, hd01]
    simp only [eq_self_iff_true, h01, if_true, if_false]
    unfold smoothing_derivative predicted_positions pairSpeeds pairPositions pairMasses
    simp only [Matrix.cons_val_zero, Matrix.cons_val_one, Matrix.head_cons]
    norm_num [gravity0, srcConfig]
  rw [hacc]
  intro hcontra
  norm_num [Prod.ext_iff] at hcontra

/-- Claim C1 (amended): with zero gravity and two particles whose
predicted positions are farther apart than the smoothing radius, the
pressure at each particle reduces to its self-term
`kernel(0) * masses[i] = (2/h) * masses[i]`, and the acceleration is NOT
zero in general: it equals the single untruncated pairwise term
`((p'_i - p'_j)/d) * derivative(d) * masses[j] *
(TARGET_PRESSURE - (2/h) * masses[i]) * PRESSURE_FORCE_MULT` divided by
`(2/h) * masses[i]` on each axis. -/
theorem distant_pair_accel (c : Config) (hG : c.gravity = 0)
    (hh : 0 < c.smoothingRadius)
    (v p : Fin 2 → ℝ × ℝ) (m : Fin 2 → ℝ) (i j : Fin 2) (hij : i ≠ j)
    (hd : c.smoothingRadius
      < calculate_distance (predicted_positions v p i) (predicted_positions v p j)) :
    acceleration c (predicted_positions v p) m i
      = (((predicted_positions v p i).1 - (predicted_positions v p j).1)
            / calculate_distance (predicted_positions v p i) (predicted_positions v p j)
            * (smoothing_derivative c
                (calculate_distance (predicted_positions v p i)
                  (predicted_positions v p j)) * m j)
            * (c.targetPressure - 2 / c.smoothingRadius * m i)
            * c.pressureForceMult
            / (2 / c.smoothingRadius * m i),
         ((predicted_positions v p i).2 - (predicted_positions v p j).2)
            / calculate_distance (predicted_positions v p i) (predicted_positions v p j)
            * (smoothing_derivative c
                (calculate_distance (predicted_positions v p i)
                  (predicted_positions v p j)) * m j)
            * (c.targetPressure - 2 / c.smoothingRadius * m i)
            * c.pressureForceMult
            / (2 / c.smoothingRadius * m i)) := by
  have h01 : ¬ ((0:Fin 2) = 1) := by decide
  have h10 : ¬ ((1:Fin 2) = 0) := by decide
  have htwo : ∀ k : Fin 2, k = 0 ∨ k = 1 := by decide
  rcases htwo i with hi | hi <;> rcases htwo j with hj | hj <;>
    subst hi <;> subst hj
  · exact absurd rfl hij
  · have hP : calculate_pressure c (predicted_positions v p 0)
        (predicted_positions v p) m = 2 / c.smoothingRadius * m 0 := by
      unfold calculate_pressure
      rw [Fin.sum_univ_two, calculate_distance_self,
        smoothing_function_zero c hh,
        smoothing_function_eq_zero_of_le c hh hd.le]
      ring
    simp only [acceleration, pressure_force, Fin.sum_univ_two, hP]
    simp only [eq_self_iff_true, h01, if_true, if_false]
    rw [hG]
    simp only [zero_add]
  · have hP : calculate_pressure c (predicted_positions v p 1)
        (predicted_positions v p) m = 2 / c.smoothingRadius * m 1 := by
      unfold calculate_pressure
      rw [Fin.sum_univ_two, calculate_distance_self,
        smoothing_function_zero c hh,
        smoothing_function_eq_zero_of_le c hh hd.le]
      ring
    simp only [acceleration, pressure_force, Fin.sum_univ_two, hP]
    simp only [eq_self_iff_true, h10, if_true, if_false]
    rw [hG]
    simp only [zero_add, add_zero]
  · exact absurd rfl hij

/-- Witness for C1's amended statement: the concrete two-particle
configuration `60 > 30` apart under the zero-gravity source constants. -/
theorem distant_pair_accel_witness :
    acceleration gravity0 (predicted_positions pairSpeeds pairPositions)
        pairMasses 0
      = (((predicted_positions pairSpeeds pairPositions 0).1
            - (predicted_positions pairSpeeds pairPositions 1).1)
            / calculate_distance (predicted_positions pairSpeeds pairPositions 0)
                (predicted_positions pairSpeeds pairPositions 1)
            * (smoothing_derivative gravity0
                (calculate_distance (predicted_positions pairSpeeds pairPositions 0)
                  (predicted_positions pairSpeeds pairPositions 1)) * pairMasses 1)
            * (gravity0.targetPressure - 2 / gravity0.smoothingRadius * pairMasses 0)
            * gravity0.pressureForceMult
            / (2 / gravity0.smoothingRadius * pairMasses 0),
         ((predicted_positions pairSpeeds pairPositions 0).2
            - (predicted_positions pairSpeeds pairPositions 1).2)
            / calculate_distance (predicted_positions pairSpeeds pairPositions 0)
                (predicted_positions pairSpeeds pairPositions 1)
            * (smoothing_derivative gravity0
                (calculate_distance (predicted_positions pairSpeeds pairPositions 0)
                  (predicted_positions pairSpeeds pairPositions 1)) * pairMasses 1)
            * (gravity0.targetPressure - 2 / gravity0.smoothingRadius * pairMasses 0)
            * gravity0.pressureForceMult
            / (2 / gravity0.smoothingRadius * pairMasses 0)) :=
  distant_pair_accel gravity0 rfl (by norm_num [gravity0, srcConfig])
    pairSpeeds pairPositions pairMasses 0 1 (by decide)
    (by rw [pair_dist]; norm_num [gravity0, srcConfig])

end FluidSim
